import Mathlib

/-!
Verification of the Active Workout Session Engine of the `workout`
repository: the `ActiveWorkoutPage` React component
(frontend/src/routes) and the `useHeartRateMonitor` hook
(frontend/src/hooks/useHeartRateMonitor.js).

Modelling conventions.
The component is single threaded and event driven, so it is embedded as a
state record (`EngineState`) together with one Lean function per event
handler.  React applies queued `setX` updates in dispatch order within one
handler invocation; the embedding applies them eagerly in the same order,
which coincides with the React semantics for these handlers because no
handler reads a state variable it has written earlier in the same
invocation (refs are mutated in place in both).  Text inputs hold either
the empty string (the only falsy value they produce) or a numeric string,
modelled as `Option Nat` with `none` for empty.  Nullable numbers are
`Option Nat`; JavaScript truthiness of such a value (null and 0 falsy) is
`truthyNum`.  Browser storage is the `LocalCache` record (the two keys the
engine uses for one session), and each write site takes a Bool oracle
saying whether `localStorage.setItem` succeeds or throws.  Remote calls
during completion and cancellation take a similar oracle; a `false` models
a thrown request, which lands in the enclosing catch block.
-/

namespace Workout

/-- JavaScript truthiness of a nullable number: null, undefined and 0 are
falsy. -/
def truthyNum : Option Nat → Bool
  | none => false
  | some n => n != 0

/-- One historical countdown run, as built by the interval callback of
`handleStartTimer` (completed) and by `handleStopTimer` (stopped early). -/
structure TimerRun where
  started_at : Nat
  duration_seconds : Nat
  planned_duration_seconds : Nat
  completed : Bool
  deriving DecidableEq

/-- A logged set: the `newSet` object literal in `handleAddSet`.  `weight`,
`rpe` and `notes` are nullable; `timer_runs` is either omitted
(`undefined`, modelled `none`) or a list. -/
structure SetRecord where
  reps : Nat
  weight : Option Nat
  completed_at : Nat
  rpe : Option Nat
  notes : Option Nat
  timer_runs : Option (List TimerRun)
  deriving DecidableEq

/-- Kind of a planned timer (`per_set` or `total`); only displayed. -/
inductive TimerKind where
  | perSet
  | total
  deriving DecidableEq

/-- A planned timer copied from the plan. -/
structure TimerDefinition where
  duration : Nat
  kind : TimerKind
  deriving DecidableEq

/-- An element of the `sessionExercises` state array, as assembled by
`fetchWorkoutData` from the plan and the server session. -/
structure SessionExercise where
  exercise_version_id : Nat
  sets : List SetRecord
  plannedSets : Option Nat
  plannedReps : Option Nat
  plannedWeight : Option Nat
  isBodyweight : Bool
  instruction : Option Nat
  timers : List TimerDefinition
  deriving DecidableEq

/-- One accepted sensor reading (`{timestamp, value}`). -/
structure HeartRateReading where
  timestamp : Nat
  value : Nat
  deriving DecidableEq

/-- The two browser-storage keys the engine uses for one session
(`workout_session_{id}_exercises` and `workout_session_{id}_heart_rate`);
`none` models an absent key. -/
structure LocalCache where
  exercises : Option (List SessionExercise)
  heart_rate : Option (List HeartRateReading)
  deriving DecidableEq

/-- The in-memory component state of `ActiveWorkoutPage`, restricted to the
fields the session engine reads or writes, together with the mirrored
local cache.  `timerInterval` models whether `timerIntervalRef.current`
holds a live interval handle; `timerStartTime` and `timerPlannedDuration`
model the two companion refs. -/
structure EngineState where
  sessionExercises : List SessionExercise
  currentExerciseIndex : Nat
  currentReps : Option Nat
  currentWeight : Option Nat
  currentRpe : Option Nat
  oneRmMode : Bool
  activeTimerIndex : Option Nat
  timeRemaining : Option Nat
  timerInterval : Bool
  timerStartTime : Option Nat
  timerPlannedDuration : Option Nat
  currentSetTimerRuns : List TimerRun
  heartRateReadings : List HeartRateReading
  cache : LocalCache
  deriving DecidableEq

/-! ### Sensor payload decoding (useHeartRateMonitor.js, parseHeartRate) -/

/-- `DataView.getUint8(i)`: reads byte `i`; an out-of-range access raises a
RangeError, modelled as `none`. -/
def getUint8 (bytes : List Nat) (i : Nat) : Option Nat :=
  bytes.get? i

/-- `DataView.getUint16(i, true)`: little-endian 16-bit read at offset
`i`; raises a RangeError unless both bytes exist. -/
def getUint16le (bytes : List Nat) (i : Nat) : Option Nat :=
  match bytes.get? i, bytes.get? (i + 1) with
  | some lo, some hi => some (lo + 256 * hi)
  | _, _ => none

/-- `parseHeartRate` of `useHeartRateMonitor.js`: byte 0 is a flags field;
its bit 0 selects an 8-bit read at byte 1 versus a little-endian 16-bit
read at bytes 1-2. -/
def parseHeartRate (bytes : List Nat) : Option Nat :=
  match getUint8 bytes 0 with
  | none => none
  | some flags =>
    let rate16Bits := flags &&& 1
    if rate16Bits != 0 then
      getUint16le bytes 1
    else
      getUint8 bytes 1

/-! ### Heart-rate chunking (handleCompleteWorkout, batching loop) -/

/-- The chunk size constant `BATCH_SIZE` of `handleCompleteWorkout`. -/
def BATCH_SIZE : Nat := 150

/-- The batching loop of `handleCompleteWorkout`:
`for (i = 0; i < readings.length; i += BATCH_SIZE)
   batches.push(readings.slice(i, i + BATCH_SIZE))`. -/
def batches (l : List HeartRateReading) : List (List HeartRateReading) :=
  if h : l = [] then []
  else l.take BATCH_SIZE :: batches (l.drop BATCH_SIZE)
termination_by l.length
decreasing_by
  simp only [List.length_drop]
  exact Nat.sub_lt (List.length_pos.mpr h) (by decide)

/-! ### Timer subsystem (handleStartTimer, handleStopTimer, tick callback) -/

/-- The non-completed run recorded by `handleStopTimer`:
`actualDuration = plannedDuration - timeRemaining`. -/
def stoppedRun (startedAt planned remaining : Nat) : TimerRun :=
  { started_at := startedAt
    duration_seconds := planned - remaining
    planned_duration_seconds := planned
    completed := false }

/-- The completed run recorded by the interval callback when the countdown
reaches zero: actual equals planned. -/
def completedRun (startedAt planned : Nat) : TimerRun :=
  { started_at := startedAt
    duration_seconds := planned
    planned_duration_seconds := planned
    completed := true }

/-- `handleStopTimer`.  With a live interval handle the run is recorded,
guarded by truthiness of `timerStartTimeRef.current` (a Date, truthy when
non-null), of `timerPlannedDurationRef.current` (a number, falsy when null
or 0) and by `timeRemaining !== null`; the handle and both refs are then
cleared.  `activeTimerIndex` and `timeRemaining` are nulled in every
case. -/
def handleStopTimer (s : EngineState) : EngineState :=
  if s.timerInterval then
    let s1 :=
      match s.timerStartTime, s.timerPlannedDuration, s.timeRemaining with
      | some st, some p, some r =>
        if p != 0 then
          { s with currentSetTimerRuns := s.currentSetTimerRuns ++ [stoppedRun st p r] }
        else s
      | _, _, _ => s
    { s1 with
      timerInterval := false
      timerStartTime := none
      timerPlannedDuration := none
      activeTimerIndex := none
      timeRemaining := none }
  else
    { s with activeTimerIndex := none, timeRemaining := none }

/-- One firing of the one-second interval callback armed by
`handleStartTimer`; it can only fire while the handle is live.  The
functional update reads the latest `timeRemaining` (null coerces to 0 in
the JavaScript comparison `prev <= 1`).  On completion the run is recorded
under the same ref-truthiness guard as in `handleStopTimer`. -/
def handleTimerTick (s : EngineState) : EngineState :=
  if s.timerInterval then
    let prev := s.timeRemaining.getD 0
    if prev ≤ 1 then
      let s1 := { s with timerInterval := false, activeTimerIndex := none }
      let s2 :=
        match s.timerStartTime, s.timerPlannedDuration with
        | some st, some p =>
          if p != 0 then
            { s1 with currentSetTimerRuns := s1.currentSetTimerRuns ++ [completedRun st p] }
          else s1
        | _, _ => s1
      { s2 with
        timerStartTime := none
        timerPlannedDuration := none
        timeRemaining := some 0 }
    else
      { s with timeRemaining := some (prev - 1) }
  else s

/-- `handleStartTimer(timerIndex, duration)` at wall-clock instant `now`:
a live timer is stopped first, then the countdown state and the two refs
are set and the interval is armed. -/
def handleStartTimer (s : EngineState) (timerIndex duration now : Nat) : EngineState :=
  let s0 := if s.timerInterval then handleStopTimer s else s
  { s0 with
    activeTimerIndex := some timerIndex
    timeRemaining := some duration
    timerStartTime := some now
    timerPlannedDuration := some duration
    timerInterval := true }

/-- `handleRestartTimer` simply delegates to `handleStartTimer`. -/
def handleRestartTimer (s : EngineState) (timerIndex duration now : Nat) : EngineState :=
  handleStartTimer s timerIndex duration now

/-! ### Durable local cache write-through effects -/

/-- The `useEffect` persisting `sessionExercises` (guard:
`sessionExercises.length > 0`).  The `localStorage.setItem` call is not
wrapped in a try block; the Bool component records whether the write threw
out of the effect (`ok = false` models a storage failure, which leaves the
stored value unchanged). -/
def saveExercisesEffect (ok : Bool) (s : EngineState) : EngineState × Bool :=
  if s.sessionExercises.length > 0 then
    if ok then
      ({ s with cache := { s.cache with exercises := some s.sessionExercises } }, false)
    else
      (s, true)
  else
    (s, false)

/-- The effect that appends an accepted sensor reading and best-effort
persists the stream: here the `localStorage.setItem` call is wrapped in a
try block, so a failed write is caught and ignored and the updated
in-memory list is returned either way. -/
def recordHeartRateEffect (s : EngineState) (value time : Nat) (ok : Bool) : EngineState :=
  let updated := s.heartRateReadings ++ [{ timestamp := time, value := value }]
  let cache1 := if ok then { s.cache with heart_rate := some updated } else s.cache
  { s with heartRateReadings := updated, cache := cache1 }

/-! ### Session state operations -/

/-- `handleAddSet` at wall-clock `now`, with `ok` the storage oracle for
the write-through effect that follows the state update.  The source
indexes `sessionExercises[currentExerciseIndex]`; the Add Set button is
rendered only under a `currentExercise &&` guard, so the handler is only
invocable with the index in range — out of range the model leaves the
state unchanged. -/
def handleAddSet (s : EngineState) (now : Nat) (ok : Bool) : EngineState :=
  match s.currentReps with
  | none => s
  | some reps =>
    match s.sessionExercises.get? s.currentExerciseIndex with
    | none => s
    | some currentExercise =>
      let newSet : SetRecord :=
        { reps := reps
          weight := s.currentWeight
          completed_at := now
          rpe := s.currentRpe
          notes := none
          timer_runs :=
            if s.currentSetTimerRuns.length > 0 then some s.currentSetTimerRuns else none }
      let updatedExercises := s.sessionExercises.set s.currentExerciseIndex
        { currentExercise with sets := currentExercise.sets ++ [newSet] }
      let s2 := (saveExercisesEffect ok { s with sessionExercises := updatedExercises }).1
      let s3 := { s2 with currentWeight := none, currentRpe := none, currentSetTimerRuns := [] }
      if s.oneRmMode then
        { s3 with currentReps := some 1 }
      else
        { s3 with
          currentReps :=
            if truthyNum currentExercise.plannedReps then currentExercise.plannedReps else none
          currentWeight :=
            if truthyNum currentExercise.plannedWeight && !currentExercise.isBodyweight then
              currentExercise.plannedWeight
            else none }

/-- The disabled prop of the Add Set button:
`!currentReps || activeTimerIndex !== null`. -/
def addSetDisabled (s : EngineState) : Bool :=
  s.currentReps.isNone || s.activeTimerIndex.isSome

/-- The user-level add-set operation: clicking the Add Set button, which
does nothing while the button is disabled. -/
def addSet (s : EngineState) (now : Nat) (ok : Bool) : EngineState :=
  if addSetDisabled s then s else handleAddSet s now ok

/-- `handleDeleteSet(exerciseIndex, setIndex)`: filters the indexed set out
and writes through to the cache (`ok` again the storage oracle). -/
def handleDeleteSet (s : EngineState) (exerciseIndex setIndex : Nat) (ok : Bool) :
    EngineState :=
  match s.sessionExercises.get? exerciseIndex with
  | none => s
  | some ex =>
    let updatedExercises := s.sessionExercises.set exerciseIndex
      { ex with sets := ((ex.sets.enum.filter (fun p => p.1 != setIndex)).map (·.2)) }
    (saveExercisesEffect ok { s with sessionExercises := updatedExercises }).1

/-- `handleToggle1RmMode` together with the `[oneRmMode]` effect that pins
the reps input to 1 when the mode turns on (the lazy history fetch only
fills a display cache and is omitted from the state). -/
def handleToggle1RmMode (s : EngineState) : EngineState :=
  let newMode := !s.oneRmMode
  { s with
    oneRmMode := newMode
    currentReps := if newMode then some 1 else s.currentReps }

/-- `handleChangeExercise(index)`.  React applies the queued updates in
dispatch order, so the `setCurrentSetTimerRuns([])` issued here is applied
before the functional append issued by the trailing `handleStopTimer()`
call; the model applies the updates eagerly in the same order
(`handleStopTimer` reads only the refs and `timeRemaining`, none of which
is written earlier in this handler). -/
def handleChangeExercise (s : EngineState) (index : Nat) : EngineState :=
  let prefill := s.sessionExercises.get? index
  let s1 := { s with
    currentExerciseIndex := index
    oneRmMode := false
    currentSetTimerRuns := []
    currentReps :=
      match prefill with
      | some ex => if truthyNum ex.plannedReps then ex.plannedReps else none
      | none => none
    currentWeight :=
      match prefill with
      | some ex =>
        if truthyNum ex.plannedWeight && !ex.isBodyweight then ex.plannedWeight else none
      | none => none
    currentRpe := none }
  handleStopTimer s1

/-! ### Completion and cancellation protocols -/

/-- The remote calls `handleCompleteWorkout` issues, in protocol order. -/
inductive NetRequest where
  | patchExercises
  | patchGarmin
  | postChunk (index : Nat)
  | postComplete
  deriving DecidableEq

/-- Result of a completion attempt: the component state (cache included),
the sensor connection flag, whether the attempt was surfaced as success,
and the heart-rate chunks actually posted. -/
structure CompletionOutcome where
  state : EngineState
  connected : Bool
  success : Bool
  sentChunks : List (List HeartRateReading)
  deriving DecidableEq

/-- The sequential chunk-upload loop of `handleCompleteWorkout`: chunk `i`
is posted to the per-session, per-index endpoint; a thrown request aborts
the loop (and the surrounding try block).  Returns the chunks posted so
far and whether every post succeeded. -/
def sendChunks (net : NetRequest → Bool) (i0 : Nat) :
    List (List HeartRateReading) → List (List HeartRateReading) × Bool
  | [] => ([], true)
  | c :: rest =>
    if net (.postChunk i0) then
      let r := sendChunks net (i0 + 1) rest
      (c :: r.1, r.2)
    else ([], false)

/-- Steps of `handleCompleteWorkout` from the finalize call on: posting
complete, then removing both cache keys and disconnecting the sensor if
connected. -/
def finalizeCompletion (s : EngineState) (connected : Bool) (net : NetRequest → Bool)
    (sent : List (List HeartRateReading)) : CompletionOutcome :=
  if net .postComplete then
    { state := { s with cache := { exercises := none, heart_rate := none } }
      connected := if connected then false else connected
      success := true
      sentChunks := sent }
  else
    { state := s, connected := connected, success := false, sentChunks := sent }

/-- `handleCompleteWorkout`.  `net` says which remote calls succeed; a
`false` models a thrown request, which jumps to the catch block — that
block only resets the `completingWorkout` flag and shows an alert, so
state, cache and the sensor connection stay untouched and no success is
surfaced.  The summary statistics patch is represented by the
`patchGarmin` request (its numeric payload plays no role in the claims). -/
def handleCompleteWorkout (s : EngineState) (connected : Bool)
    (includeHeartRate : Bool) (net : NetRequest → Bool) : CompletionOutcome :=
  if !net .patchExercises then
    { state := s, connected := connected, success := false, sentChunks := [] }
  else if includeHeartRate && s.heartRateReadings.length > 0 then
    if !net .patchGarmin then
      { state := s, connected := connected, success := false, sentChunks := [] }
    else
      let sent := sendChunks net 0 (batches s.heartRateReadings)
      if !sent.2 then
        { state := s, connected := connected, success := false, sentChunks := sent.1 }
      else
        finalizeCompletion s connected net sent.1
  else
    finalizeCompletion s connected net []

/-- `handleConfirmCancelWorkout`: the remote delete runs first; only when
it succeeds are the two cache keys removed and the sensor disconnected (a
thrown delete lands in the catch block, which only logs).  Returns the
state and the connection flag. -/
def handleConfirmCancelWorkout (s : EngineState) (connected : Bool) (deleteOk : Bool) :
    EngineState × Bool :=
  if deleteOk then
    ({ s with cache := { exercises := none, heart_rate := none } },
     if connected then false else connected)
  else
    (s, connected)

/-! ### Session initialization (fetchWorkoutData and the rehydration effect) -/

/-- An element of the server sessions exercises array
(`{exercise_version_id, sets}`). -/
structure ServerSessionExercise where
  exercise_version_id : Nat
  sets : List SetRecord
  deriving DecidableEq

/-- The server session document, restricted to the fields
`fetchWorkoutData` reads; an absent or empty exercises array are
indistinguishable to the code (`!sessionData.exercises ||
sessionData.exercises.length === 0`), so both are the empty list. -/
structure ServerSession where
  workout_plan_id : Option Nat
  exercises : List ServerSessionExercise
  deriving DecidableEq

/-- An element of the plan document exercises array. -/
structure PlanExercise where
  exercise_version_id : Nat
  planned_sets : Option Nat
  planned_reps : Option Nat
  planned_weight : Option Nat
  is_bodyweight : Bool
  instruction : Option Nat
  timers : List TimerDefinition
  deriving DecidableEq

/-- The plan document, restricted to its exercises array. -/
structure WorkoutPlan where
  exercises : List PlanExercise
  deriving DecidableEq

/-- Seeding of a `SessionExercise` from a plan entry (the
`initialExercises` mapping, used when the server session has no logged
exercises). -/
def seedFromPlan (pe : PlanExercise) : SessionExercise :=
  { exercise_version_id := pe.exercise_version_id
    sets := []
    plannedSets := pe.planned_sets
    plannedReps := pe.planned_reps
    plannedWeight := pe.planned_weight
    isBodyweight := pe.is_bodyweight
    instruction := pe.instruction
    timers := pe.timers }

/-- The `mappedExercises` mapping, used when the server session already
carries exercise data: plan entries joined with the server sets by
exercise-version id (`sessionEx?.sets || []`). -/
def mapWithSession (serverExercises : List ServerSessionExercise) (pe : PlanExercise) :
    SessionExercise :=
  { exercise_version_id := pe.exercise_version_id
    sets :=
      ((serverExercises.find? fun se =>
        se.exercise_version_id == pe.exercise_version_id).map (·.sets)).getD []
    plannedSets := pe.planned_sets
    plannedReps := pe.planned_reps
    plannedWeight := pe.planned_weight
    isBodyweight := pe.is_bodyweight
    instruction := pe.instruction
    timers := pe.timers }

/-- The `setSessionExercises` update issued by `fetchWorkoutData` once the
network responses arrive: only sessions with a plan touch the list. -/
def fetchWorkoutDataResult (sessionData : ServerSession) (planData : WorkoutPlan)
    (current : List SessionExercise) : List SessionExercise :=
  match sessionData.workout_plan_id with
  | none => current
  | some _ =>
    if sessionData.exercises.length = 0 then
      planData.exercises.map seedFromPlan
    else
      planData.exercises.map (mapWithSession sessionData.exercises)

/-- The localStorage rehydration effect: a present, parseable stored entry
replaces the in-memory list. -/
def rehydrateFromCache (stored : Option (List SessionExercise))
    (current : List SessionExercise) : List SessionExercise :=
  match stored with
  | some parsed => parsed
  | none => current

/-- Mount-time initialization order: the fetch effect is declared first but
suspends at its first await; the rehydration effect then runs
synchronously; the `setSessionExercises` of the fetch applies when the
network responses arrive — after rehydration. -/
def initializeSessionExercises (stored : Option (List SessionExercise))
    (sessionData : ServerSession) (planData : WorkoutPlan) : List SessionExercise :=
  fetchWorkoutDataResult sessionData planData (rehydrateFromCache stored [])

/-! ### The event system -/

/-- The user actions, timer callbacks and sensor notifications that can
reach the engine during an active session.  Storage oracles ride on the
events whose handlers write through to the cache. -/
inductive EngineEvent where
  | startTimer (timerIndex duration now : Nat)
  | tick
  | stopTimer
  | restartTimer (timerIndex duration now : Nat)
  | changeExercise (index : Nat)
  | clickAddSet (now : Nat) (storageOk : Bool)
  | deleteSet (exerciseIndex setIndex : Nat) (storageOk : Bool)
  | setRepsInput (v : Option Nat)
  | setWeightInput (v : Option Nat)
  | setRpeInput (v : Option Nat)
  | toggle1Rm
  | heartRate (value time : Nat) (storageOk : Bool)
  deriving DecidableEq

/-- Dispatch of one event to its handler. -/
def step (s : EngineState) : EngineEvent → EngineState
  | .startTimer i d n => handleStartTimer s i d n
  | .tick => handleTimerTick s
  | .stopTimer => handleStopTimer s
  | .restartTimer i d n => handleRestartTimer s i d n
  | .changeExercise i => handleChangeExercise s i
  | .clickAddSet n ok => addSet s n ok
  | .deleteSet ei si ok => handleDeleteSet s ei si ok
  | .setRepsInput v => { s with currentReps := v }
  | .setWeightInput v => { s with currentWeight := v }
  | .setRpeInput v => { s with currentRpe := v }
  | .toggle1Rm => handleToggle1RmMode s
  | .heartRate v t ok => recordHeartRateEffect s v t ok

/-- Execution of a sequence of events. -/
def run (s : EngineState) (evs : List EngineEvent) : EngineState :=
  evs.foldl step s

/-- The component state at the start of a fresh session seeded from a
plan: no logged sets, no timer, no pending runs, empty cache. -/
def initState (plan : WorkoutPlan) : EngineState :=
  { sessionExercises := plan.exercises.map seedFromPlan
    currentExerciseIndex := 0
    currentReps := none
    currentWeight := none
    currentRpe := none
    oneRmMode := false
    activeTimerIndex := none
    timeRemaining := none
    timerInterval := false
    timerStartTime := none
    timerPlannedDuration := none
    currentSetTimerRuns := []
    heartRateReadings := []
    cache := { exercises := none, heart_rate := none } }

/-! ### Concrete sample data for closed evaluations -/

/-- A logged set with no attached runs. -/
def sampleSet : SetRecord :=
  { reps := 10
    weight := some 135
    completed_at := 50
    rpe := none
    notes := none
    timer_runs := none }

/-- A session exercise holding one logged set. -/
def sampleExercise : SessionExercise :=
  { exercise_version_id := 1
    sets := [sampleSet]
    plannedSets := some 3
    plannedReps := some 10
    plannedWeight := some 135
    isBodyweight := false
    instruction := none
    timers := [{ duration := 60, kind := .perSet }] }

/-- A state in the middle of a 60 second countdown with 40 seconds left
and one exercise with one logged set. -/
def runningTimerState : EngineState :=
  { sessionExercises := [sampleExercise]
    currentExerciseIndex := 0
    currentReps := some 10
    currentWeight := some 135
    currentRpe := none
    oneRmMode := false
    activeTimerIndex := some 0
    timeRemaining := some 40
    timerInterval := true
    timerStartTime := some 100
    timerPlannedDuration := some 60
    currentSetTimerRuns := []
    heartRateReadings := []
    cache := { exercises := some [sampleExercise], heart_rate := none } }

/-- A quiescent state (no timer) with two collected readings. -/
def sampleReadingsState : EngineState :=
  { sessionExercises := [sampleExercise]
    currentExerciseIndex := 0
    currentReps := some 10
    currentWeight := none
    currentRpe := none
    oneRmMode := false
    activeTimerIndex := none
    timeRemaining := none
    timerInterval := false
    timerStartTime := none
    timerPlannedDuration := none
    currentSetTimerRuns := []
    heartRateReadings := [{ timestamp := 1, value := 80 }, { timestamp := 2, value := 82 }]
    cache := { exercises := some [sampleExercise]
               heart_rate := some [{ timestamp := 1, value := 80 },
                                   { timestamp := 2, value := 82 }] } }

/-- A network oracle on which every remote call succeeds. -/
def allOkNet : NetRequest → Bool := fun _ => true

/-- A network oracle on which every remote call throws. -/
def allFailNet : NetRequest → Bool := fun _ => false

/-- A plan with one exercise, for runs of the event system. -/
def samplePlanExercise : PlanExercise :=
  { exercise_version_id := 1
    planned_sets := some 3
    planned_reps := some 10
    planned_weight := some 135
    is_bodyweight := false
    instruction := none
    timers := [{ duration := 60, kind := .perSet }] }

/-- The one-exercise plan. -/
def samplePlan : WorkoutPlan :=
  { exercises := [samplePlanExercise] }

/-- The server session of the stale-cache scenario: it has a plan and
already carries exercise data (one entry, no sets) for the same
exercise-version id as the cached entry. -/
def staleServerSession : ServerSession :=
  { workout_plan_id := some 7
    exercises := [{ exercise_version_id := 1, sets := [] }] }

/-- An event sequence that starts a 3 second timer, lets it tick once and
stops it early: it produces the pending run `stoppedRun 0 3 2`. -/
def sampleTimerEvents : List EngineEvent :=
  [.startTimer 0 3 0, .tick, .stopTimer]

/-- The in-memory portion of the state: everything except the cache
mirror. -/
def inMemory (s : EngineState) : EngineState :=
  { s with cache := { exercises := none, heart_rate := none } }

/-! ### Timer-run well-formedness -/

/-- The claimed shape of a timer run: a completed run has actual equal to
planned; a stopped run has actual strictly below planned (durations are
naturals, so nonnegativity is inherent). -/
def WfRun (r : TimerRun) : Prop :=
  (r.completed = true → r.duration_seconds = r.planned_duration_seconds) ∧
  (r.completed = false → r.duration_seconds < r.planned_duration_seconds)

instance (r : TimerRun) : Decidable (WfRun r) := by
  unfold WfRun
  infer_instance

/-- Countdown invariant: while the interval handle is live, the remaining
time and both refs are set, the remaining time never exceeds the planned
duration, and it is at least 1 unless the planned duration is 0. -/
def TimerInv (s : EngineState) : Prop :=
  s.timerInterval = true →
    ∃ rem p, s.timeRemaining = some rem ∧ s.timerPlannedDuration = some p ∧
      s.timerStartTime.isSome = true ∧ rem ≤ p ∧ (0 < p → 1 ≤ rem)

/-- All runs held by the state — pending ones and those attached to logged
sets — are well formed. -/
def RunsWf (s : EngineState) : Prop :=
  (∀ r ∈ s.currentSetTimerRuns, WfRun r) ∧
  (∀ ex ∈ s.sessionExercises, ∀ st ∈ ex.sets, ∀ l, st.timer_runs = some l →
    ∀ r ∈ l, WfRun r)

/-- The inductive invariant of the engine. -/
def GoodState (s : EngineState) : Prop :=
  TimerInv s ∧ RunsWf s

theorem batches_flatten (l : List HeartRateReading) : (batches l).flatten = l := by
  rw [batches]
  by_cases h : l = []
  · simp [h]
  · rw [dif_neg h, List.flatten_cons, batches_flatten (l.drop BATCH_SIZE)]
    exact List.take_append_drop _ l
termination_by l.length
decreasing_by
  simp only [List.length_drop]
  exact Nat.sub_lt (List.length_pos.mpr h) (by decide)

theorem batches_length (l : List HeartRateReading) :
    (batches l).length = (l.length + 149) / 150 := by
  rw [batches]
  by_cases h : l = []
  · simp [h]
  · rw [dif_neg h]
    simp only [List.length_cons, batches_length (l.drop BATCH_SIZE), List.length_drop]
    have hpos : 0 < l.length := List.length_pos.mpr h
    show (l.length - BATCH_SIZE + 149) / 150 + 1 = (l.length + 149) / 150
    rw [show BATCH_SIZE = 150 from rfl]
    omega
termination_by l.length
decreasing_by
  simp only [List.length_drop]
  exact Nat.sub_lt (List.length_pos.mpr h) (by decide)

theorem batches_chunk_le (l : List HeartRateReading) :
    ∀ c ∈ batches l, c.length ≤ BATCH_SIZE := by
  rw [batches]
  by_cases h : l = []
  · simp [h]
  · rw [dif_neg h]
    intro c hc
    rcases List.mem_cons.mp hc with hc | hc
    · subst hc
      exact le_trans (Nat.le_of_eq (List.length_take _ _)) (min_le_left _ _)
    · exact batches_chunk_le (l.drop BATCH_SIZE) c hc
termination_by l.length
decreasing_by
  simp only [List.length_drop]
  exact Nat.sub_lt (List.length_pos.mpr h) (by decide)

theorem snd_mem_of_mem_enumFrom {α : Type} {l : List α} {n : Nat} {pr : Nat × α}
    (h : pr ∈ l.enumFrom n) : pr.2 ∈ l := by
  induction l generalizing n with
  | nil => simp [List.enumFrom] at h
  | cons a t ih =>
    simp only [List.enumFrom, List.mem_cons] at h
    rcases h with h | h
    · subst h
      exact List.mem_cons_self _ _
    · exact List.mem_cons_of_mem _ (ih h)

theorem saveExercisesEffect_state (ok : Bool) (s : EngineState) :
    (saveExercisesEffect ok s).1 = { s with cache := (saveExercisesEffect ok s).1.cache } := by
  unfold saveExercisesEffect
  split
  · split <;> rfl
  · rfl

theorem goodState_stopTimer (s : EngineState) (h : GoodState s) :
    GoodState (handleStopTimer s) := by
  obtain ⟨hinv, hruns, hsets⟩ := h
  unfold handleStopTimer
  split
  case isTrue hti =>
    obtain ⟨rem, p, hrem, hp, hst, hrp, hp1⟩ := hinv hti
    obtain ⟨st, hstv⟩ : ∃ st, s.timerStartTime = some st := by
      cases hsv : s.timerStartTime with
      | none => rw [hsv] at hst; simp at hst
      | some st => exact ⟨st, rfl⟩
    rw [hstv, hrem, hp]
    by_cases hpz : p = 0
    · subst hpz
      simp only [bne_self_eq_false, Bool.false_eq_true, if_false]
      exact ⟨fun hc => by simp at hc, hruns, hsets⟩
    · simp only [bne_iff_ne, ne_eq, hpz, not_false_eq_true, if_true]
      refine ⟨fun hc => by simp at hc, ?_, hsets⟩
      intro r hr
      rcases List.mem_append.mp hr with hr | hr
      · exact hruns r hr
      · rw [List.mem_singleton.mp hr]
        refine ⟨fun hc => by simp [stoppedRun] at hc, fun _ => ?_⟩
        have hp0 : 0 < p := Nat.pos_of_ne_zero hpz
        exact Nat.sub_lt hp0 (hp1 hp0)
  case isFalse hti =>
    exact ⟨fun hc => absurd hc hti, hruns, hsets⟩

theorem goodState_timerTick (s : EngineState) (h : GoodState s) :
    GoodState (handleTimerTick s) := by
  obtain ⟨hinv, hruns, hsets⟩ := h
  unfold handleTimerTick
  split
  case isTrue hti =>
    obtain ⟨rem, p, hrem, hp, hst, hrp, hp1⟩ := hinv hti
    obtain ⟨st, hstv⟩ : ∃ st, s.timerStartTime = some st := by
      cases hsv : s.timerStartTime with
      | none => rw [hsv] at hst; simp at hst
      | some st => exact ⟨st, rfl⟩
    rw [hrem, hstv, hp]
    simp only [Option.getD_some]
    split
    case isTrue hle =>
      by_cases hpz : p = 0
      · subst hpz
        simp only [bne_self_eq_false, Bool.false_eq_true, if_false]
        exact ⟨fun hc => by simp at hc, hruns, hsets⟩
      · simp only [bne_iff_ne, ne_eq, hpz, not_false_eq_true, if_true]
        refine ⟨fun hc => by simp at hc, ?_, hsets⟩
        intro r hr
        rcases List.mem_append.mp hr with hr | hr
        · exact hruns r hr
        · rw [List.mem_singleton.mp hr]
          exact ⟨fun _ => rfl, fun hc => by simp [completedRun] at hc⟩
    case isFalse hgt =>
      refine ⟨?_, hruns, hsets⟩
      intro _
      refine ⟨rem - 1, p, rfl, rfl, rfl, Nat.le_trans (Nat.sub_le _ _) hrp, ?_⟩
      intro _
      omega
  case isFalse hti =>
    exact ⟨hinv, hruns, hsets⟩

theorem goodState_startTimer (s : EngineState) (i d n : Nat) (h : GoodState s) :
    GoodState (handleStartTimer s i d n) := by
  unfold handleStartTimer
  have h0 : GoodState (if s.timerInterval then handleStopTimer s else s) := by
    split
    · exact goodState_stopTimer s h
    · exact h
  obtain ⟨_, hruns, hsets⟩ := h0
  refine ⟨?_, hruns, hsets⟩
  intro _
  exact ⟨d, d, rfl, rfl, rfl, Nat.le_refl d, fun _ => by omega⟩

theorem goodState_changeExercise (s : EngineState) (i : Nat) (h : GoodState s) :
    GoodState (handleChangeExercise s i) := by
  obtain ⟨hinv, _, hsets⟩ := h
  unfold handleChangeExercise
  apply goodState_stopTimer
  refine ⟨?_, ?_, hsets⟩
  · intro ht
    exact hinv ht
  · intro r hr
    simp at hr

theorem goodState_addSet (s : EngineState) (now : Nat) (ok : Bool) (h : GoodState s) :
    GoodState (addSet s now ok) := by
  obtain ⟨hinv, hruns, hsets⟩ := h
  unfold addSet
  split
  · exact ⟨hinv, hruns, hsets⟩
  unfold handleAddSet
  split
  · exact ⟨hinv, hruns, hsets⟩
  case h_2 reps hreps =>
    split
    · exact ⟨hinv, hruns, hsets⟩
    case h_2 currentExercise hex =>
      dsimp only
      rw [saveExercisesEffect_state]
      split <;>
      · refine ⟨fun ht => hinv ht, fun r hr => by simp at hr, ?_⟩
        intro ex hmem st hst l hl r hr
        rcases List.mem_or_eq_of_mem_set hmem with hmem | rfl
        · exact hsets ex hmem st hst l hl r hr
        · rcases List.mem_append.mp hst with hst | hst
          · exact hsets currentExercise (List.get?_mem hex) st hst l hl r hr
          · rw [List.mem_singleton.mp hst] at hl
            simp only at hl
            split at hl
            case isTrue hlen =>
              rw [← Option.some.injEq] at hl
              cases hl
              exact hruns r hr
            case isFalse hlen =>
              cases hl

theorem goodState_deleteSet (s : EngineState) (ei si : Nat) (ok : Bool) (h : GoodState s) :
    GoodState (handleDeleteSet s ei si ok) := by
  obtain ⟨hinv, hruns, hsets⟩ := h
  unfold handleDeleteSet
  split
  · exact ⟨hinv, hruns, hsets⟩
  case h_2 ex hex =>
    dsimp only
    rw [saveExercisesEffect_state]
    refine ⟨fun ht => hinv ht, hruns, ?_⟩
    intro ex1 hmem st hst l hl r hr
    rcases List.mem_or_eq_of_mem_set hmem with hmem | rfl
    · exact hsets ex1 hmem st hst l hl r hr
    · simp only at hst
      rcases List.mem_map.mp hst with ⟨pr, hpr, rfl⟩
      have h1 : pr ∈ ex.sets.enum := (List.mem_filter.mp hpr).1
      have h2 : pr.2 ∈ ex.sets := snd_mem_of_mem_enumFrom h1
      exact hsets ex (List.get?_mem hex) pr.2 h2 l hl r hr

theorem goodState_step (s : EngineState) (e : EngineEvent) (h : GoodState s) :
    GoodState (step s e) := by
  obtain ⟨hinv, hruns, hsets⟩ := h
  cases e with
  | startTimer i d n => exact goodState_startTimer s i d n ⟨hinv, hruns, hsets⟩
  | tick => exact goodState_timerTick s ⟨hinv, hruns, hsets⟩
  | stopTimer => exact goodState_stopTimer s ⟨hinv, hruns, hsets⟩
  | restartTimer i d n => exact goodState_startTimer s i d n ⟨hinv, hruns, hsets⟩
  | changeExercise i => exact goodState_changeExercise s i ⟨hinv, hruns, hsets⟩
  | clickAddSet n ok => exact goodState_addSet s n ok ⟨hinv, hruns, hsets⟩
  | deleteSet ei si ok => exact goodState_deleteSet s ei si ok ⟨hinv, hruns, hsets⟩
  | setRepsInput v => exact ⟨fun ht => hinv ht, hruns, hsets⟩
  | setWeightInput v => exact ⟨fun ht => hinv ht, hruns, hsets⟩
  | setRpeInput v => exact ⟨fun ht => hinv ht, hruns, hsets⟩
  | toggle1Rm => exact ⟨fun ht => hinv ht, hruns, hsets⟩
  | heartRate v t ok => exact ⟨fun ht => hinv ht, hruns, hsets⟩

theorem goodState_run (s : EngineState) (evs : List EngineEvent) (h : GoodState s) :
    GoodState (run s evs) := by
  induction evs generalizing s with
  | nil => exact h
  | cons e rest ih => exact ih (step s e) (goodState_step s e h)

theorem goodState_initState (plan : WorkoutPlan) : GoodState (initState plan) := by
  refine ⟨fun hc => by simp [initState] at hc, fun r hr => by simp [initState] at hr, ?_⟩
  intro ex hmem st hst l hl r hr
  simp only [initState] at hmem
  rcases List.mem_map.mp hmem with ⟨pe, _, rfl⟩
  simp [seedFromPlan] at hst

/-! ### Claim theorems -/

/-- Claim C1: while a timer is Running (`activeTimerIndex` non-null), and
likewise while the reps input is absent, the add-set operation is rejected
with no state change and no cache write: the exercise list, the pending
timer runs and the persisted cache entry are exactly as before the
call. -/
theorem addSet_rejected_when_timer_running_or_reps_absent
    (s : EngineState) (now : Nat) (ok : Bool)
    (h : s.activeTimerIndex.isSome = true ∨ s.currentReps = none) :
    addSet s now ok = s ∧
    (addSet s now ok).sessionExercises = s.sessionExercises ∧
    (addSet s now ok).currentSetTimerRuns = s.currentSetTimerRuns ∧
    (addSet s now ok).cache = s.cache := by
  have heq : addSet s now ok = s := by
    unfold addSet addSetDisabled
    rcases h with h | h <;> simp [h]
  exact ⟨heq, by rw [heq], by rw [heq], by rw [heq]⟩

/-- Witness for C1 at a state with a Running timer. -/
theorem addSet_rejected_when_timer_running_or_reps_absent_witness :
    runningTimerState.activeTimerIndex.isSome = true ∧
    addSet runningTimerState 99 true = runningTimerState :=
  ⟨by decide,
    (addSet_rejected_when_timer_running_or_reps_absent runningTimerState 99 true
      (Or.inl (by decide))).1⟩

/-- Claim C10: the set record created by a successful add-set carries
`timer_runs` exactly when at least one pending run existed at the call:
with pending runs the field holds them, with none it is absent
(undefined) and in particular never an empty list. -/
theorem addSet_timer_runs_attachment (s : EngineState) (now : Nat) (ok : Bool)
    (reps : Nat) (ex : SessionExercise)
    (hreps : s.currentReps = some reps)
    (htimer : s.activeTimerIndex = none)
    (hex : s.sessionExercises.get? s.currentExerciseIndex = some ex) :
    ∃ newSet : SetRecord,
      (addSet s now ok).sessionExercises.get? s.currentExerciseIndex =
        some { ex with sets := ex.sets ++ [newSet] } ∧
      newSet.timer_runs =
        (if s.currentSetTimerRuns.length > 0 then some s.currentSetTimerRuns else none) ∧
      newSet.timer_runs ≠ some [] := by
  have hdis : addSetDisabled s = false := by
    unfold addSetDisabled
    rw [hreps, htimer]
    rfl
  have hlt : s.currentExerciseIndex < s.sessionExercises.length := by
    rw [List.get?_eq_getElem?] at hex
    exact (List.getElem?_eq_some.mp hex).1
  refine ⟨⟨reps, s.currentWeight, now, s.currentRpe, none,
    if s.currentSetTimerRuns.length > 0 then some s.currentSetTimerRuns else none⟩,
    ?_, rfl, ?_⟩
  · unfold addSet
    rw [hdis]
    simp only [Bool.false_eq_true, if_false]
    unfold handleAddSet
    rw [hreps, hex]
    dsimp only
    rw [saveExercisesEffect_state]
    split <;>
      (rw [List.get?_eq_getElem?]; exact List.getElem?_set_eq_of_lt _ hlt)
  · show (if s.currentSetTimerRuns.length > 0 then some s.currentSetTimerRuns else none) ≠
      some []
    by_cases hlen : s.currentSetTimerRuns.length > 0
    · rw [if_pos hlen]
      intro hc
      rw [Option.some.injEq] at hc
      rw [hc] at hlen
      simp at hlen
    · rw [if_neg hlen]
      intro hc
      cases hc

/-- Witness for C10: with one pending run the created set carries it; the
theorem is applied at a concrete quiescent state carrying a pending
run. -/
theorem addSet_timer_runs_attachment_witness :
    ∃ newSet : SetRecord,
      (addSet { sampleReadingsState with
          currentSetTimerRuns := [stoppedRun 100 60 20] } 77 true).sessionExercises.get? 0 =
        some { sampleExercise with sets := sampleExercise.sets ++ [newSet] } ∧
      newSet.timer_runs = some [stoppedRun 100 60 20] ∧
      newSet.timer_runs ≠ some [] := by
  have h := addSet_timer_runs_attachment
    { sampleReadingsState with currentSetTimerRuns := [stoppedRun 100 60 20] }
    77 true 10 sampleExercise rfl rfl (by decide)
  obtain ⟨newSet, h1, h2, h3⟩ := h
  exact ⟨newSet, h1, by rw [h2]; decide, h3⟩

/-- Claim C5 counterexample: switching exercises while a timer is Running
does not leave the pending timer-run list empty — the clear issued by
`handleChangeExercise` is followed by the append issued by the forced
`handleStopTimer`, so the stopped run survives the switch. -/
theorem changeExercise_pending_runs_counterexample :
    runningTimerState.timerInterval = true ∧
    (handleChangeExercise runningTimerState 0).currentSetTimerRuns ≠ [] := by
  exact ⟨rfl, by decide⟩

/-- Claim C5 amended: after `changeExercise(index)` one-rep-max mode is
off, and the pending timer-run list is empty when no timer was running at
the call; when one was running the list holds exactly the single run
recorded by the forced stop (none being recorded when the planned-duration
ref is 0, whose JavaScript falsiness skips the record). -/
theorem changeExercise_state_after (s : EngineState) (index : Nat) :
    (handleChangeExercise s index).oneRmMode = false ∧
    (handleChangeExercise s index).currentSetTimerRuns =
      (if s.timerInterval then
        match s.timerStartTime, s.timerPlannedDuration, s.timeRemaining with
        | some st, some p, some r => if p != 0 then [stoppedRun st p r] else []
        | _, _, _ => []
      else []) := by
  by_cases hti : s.timerInterval = true
  · rcases hst : s.timerStartTime with _ | st
    · rcases hp : s.timerPlannedDuration with _ | p <;>
        rcases hr : s.timeRemaining with _ | r <;>
          simp [handleChangeExercise, handleStopTimer, hti, hst, hp, hr]
    · rcases hp : s.timerPlannedDuration with _ | p
      · rcases hr : s.timeRemaining with _ | r <;>
          simp [handleChangeExercise, handleStopTimer, hti, hst, hp, hr]
      · rcases hr : s.timeRemaining with _ | r
        · simp [handleChangeExercise, handleStopTimer, hti, hst, hp, hr]
        · by_cases hpz : p = 0 <;>
            simp [handleChangeExercise, handleStopTimer, hti, hst, hp, hr, hpz]
  · have hti2 : s.timerInterval = false := by
      cases hb : s.timerInterval
      · rfl
      · exact absurd hb hti
    simp [handleChangeExercise, handleStopTimer, hti2]

/-- Claim C6: every timer run the subsystem produces along any event
sequence from a fresh plan-seeded session — whether still pending or
already attached to a logged set — has actual duration equal to planned
when completed, and actual duration at least 0 (inherent in naturals) and
strictly below planned when stopped early. -/
theorem timer_runs_well_formed (plan : WorkoutPlan) (evs : List EngineEvent) :
    (∀ r ∈ (run (initState plan) evs).currentSetTimerRuns,
      (r.completed = true → r.duration_seconds = r.planned_duration_seconds) ∧
      (r.completed = false → r.duration_seconds < r.planned_duration_seconds)) ∧
    (∀ ex ∈ (run (initState plan) evs).sessionExercises, ∀ st ∈ ex.sets,
      ∀ l, st.timer_runs = some l →
        ∀ r ∈ l,
          (r.completed = true → r.duration_seconds = r.planned_duration_seconds) ∧
          (r.completed = false → r.duration_seconds < r.planned_duration_seconds)) := by
  obtain ⟨_, hruns, hsets⟩ := goodState_run (initState plan) evs (goodState_initState plan)
  exact ⟨hruns, hsets⟩

/-- Witness for C6: a 3 second timer ticked once and stopped early
produces the pending run with actual 1, planned 3, not completed. -/
theorem timer_runs_well_formed_witness :
    stoppedRun 0 3 2 ∈ (run (initState samplePlan) sampleTimerEvents).currentSetTimerRuns ∧
    (stoppedRun 0 3 2).duration_seconds < (stoppedRun 0 3 2).planned_duration_seconds :=
  ⟨by decide,
    ((timer_runs_well_formed samplePlan sampleTimerEvents).1 (stoppedRun 0 3 2)
      (by decide)).2 (by decide)⟩

/-- Claim C9: cancellation is atomic with respect to local state — a
failed remote delete leaves the whole state (hence both cache entries)
and the sensor connection untouched; when the delete succeeds both cache
keys are removed and the sensor is disconnected. -/
theorem cancel_clears_only_after_remote_delete (s : EngineState)
    (connected deleteOk : Bool) :
    (deleteOk = false → handleConfirmCancelWorkout s connected deleteOk = (s, connected)) ∧
    (deleteOk = true →
      (handleConfirmCancelWorkout s connected deleteOk).1.cache =
        { exercises := none, heart_rate := none } ∧
      (handleConfirmCancelWorkout s connected deleteOk).2 = false) := by
  constructor
  · intro h
    rw [h]
    rfl
  · intro h
    rw [h]
    cases connected <;> exact ⟨rfl, rfl⟩

/-- Witness for C9 at a concrete state, both for a failed and for a
successful delete. -/
theorem cancel_clears_only_after_remote_delete_witness :
    handleConfirmCancelWorkout sampleReadingsState true false = (sampleReadingsState, true) ∧
    (handleConfirmCancelWorkout sampleReadingsState true true).1.cache =
      { exercises := none, heart_rate := none } :=
  ⟨(cancel_clears_only_after_remote_delete sampleReadingsState true false).1 rfl,
    ((cancel_clears_only_after_remote_delete sampleReadingsState true true).2 rfl).1⟩

theorem sendChunks_all_ok (net : NetRequest → Bool) (h : ∀ q, net q = true)
    (i0 : Nat) (cs : List (List HeartRateReading)) :
    sendChunks net i0 cs = (cs, true) := by
  induction cs generalizing i0 with
  | nil => rfl
  | cons c rest ih => simp [sendChunks, h, ih]

theorem sendChunks_ok_of_sent (net : NetRequest → Bool) (i0 : Nat)
    (cs : List (List HeartRateReading))
    (hok : (sendChunks net i0 cs).2 = true) :
    ∀ j < cs.length, net (.postChunk (i0 + j)) = true := by
  induction cs generalizing i0 with
  | nil =>
    intro j hj
    exact absurd hj (Nat.not_lt_zero j)
  | cons c rest ih =>
    intro j hj
    unfold sendChunks at hok
    by_cases hnet : net (.postChunk i0) = true
    · rw [if_pos hnet] at hok
      dsimp only at hok
      cases j with
      | zero => rw [Nat.add_zero]; exact hnet
      | succ j2 =>
        have h2 := ih (i0 + 1) hok j2 (by simpa using hj)
        rw [show i0 + (j2 + 1) = i0 + 1 + j2 by omega]
        exact h2
    · rw [if_neg hnet] at hok
      cases hok

/-- Claim C2: completing with sensor data included and every remote call
succeeding uploads exactly ceil(N/150) chunks, each holding at most 150
readings, and their in-order concatenation reproduces the original
stream. -/
theorem completion_heart_rate_chunking (s : EngineState) (connected : Bool)
    (net : NetRequest → Bool) (hne : s.heartRateReadings ≠ [])
    (hnet : ∀ q, net q = true) :
    (handleCompleteWorkout s connected true net).sentChunks.length =
      (s.heartRateReadings.length + 149) / 150 ∧
    (∀ c ∈ (handleCompleteWorkout s connected true net).sentChunks, c.length ≤ 150) ∧
    (handleCompleteWorkout s connected true net).sentChunks.flatten =
      s.heartRateReadings := by
  have hsent : (handleCompleteWorkout s connected true net).sentChunks =
      batches s.heartRateReadings := by
    unfold handleCompleteWorkout finalizeCompletion
    simp [hnet, List.length_pos.mpr hne, sendChunks_all_ok net hnet]
  rw [hsent]
  exact ⟨batches_length _, fun c hc => batches_chunk_le _ c hc, batches_flatten _⟩

/-- Witness for C2 at two collected readings: one chunk, reproducing the
stream. -/
theorem completion_heart_rate_chunking_witness :
    (handleCompleteWorkout sampleReadingsState true true allOkNet).sentChunks.length = 1 ∧
    (handleCompleteWorkout sampleReadingsState true true allOkNet).sentChunks.flatten =
      sampleReadingsState.heartRateReadings := by
  have h := completion_heart_rate_chunking sampleReadingsState true allOkNet
    (by decide) (fun _ => rfl)
  exact ⟨by rw [h.1]; decide, h.2.2⟩

/-- Claim C3: if the exercise-payload patch, the summary patch or any
chunk upload fails before the finalize call, the in-memory state
(including both cache entries) is unchanged, the sensor connection is
untouched, and the operation is not surfaced as success. -/
theorem completion_failure_leaves_state_intact (s : EngineState)
    (connected includeHR : Bool) (net : NetRequest → Bool)
    (h : net .patchExercises = false ∨
      (includeHR = true ∧ s.heartRateReadings ≠ [] ∧
        (net .patchGarmin = false ∨
          ∃ i, i < (batches s.heartRateReadings).length ∧ net (.postChunk i) = false))) :
    (handleCompleteWorkout s connected includeHR net).state = s ∧
    (handleCompleteWorkout s connected includeHR net).connected = connected ∧
    (handleCompleteWorkout s connected includeHR net).success = false := by
  unfold handleCompleteWorkout
  rcases h with h | ⟨hinc, hne, h⟩
  · simp [h]
  · by_cases hpe : net .patchExercises = true
    case neg =>
      rw [Bool.not_eq_true] at hpe
      simp [hpe]
    case pos =>
      have hlen : 0 < s.heartRateReadings.length := List.length_pos.mpr hne
      rcases h with hg | ⟨i, hi, hic⟩
      · simp [hpe, hinc, hlen, hg]
      · by_cases hg : net .patchGarmin = true
        case neg =>
          rw [Bool.not_eq_true] at hg
          simp [hpe, hinc, hlen, hg]
        case pos =>
          have hsf : (sendChunks net 0 (batches s.heartRateReadings)).2 = false := by
            cases hb : (sendChunks net 0 (batches s.heartRateReadings)).2
            · rfl
            · have := sendChunks_ok_of_sent net 0 (batches s.heartRateReadings) hb i hi
              rw [Nat.zero_add] at this
              rw [this] at hic
              cases hic
          simp [hpe, hinc, hlen, hg, hsf]

/-- Witness for C3: a completion attempt on which every remote call
throws leaves the state untouched and surfaces no success. -/
theorem completion_failure_leaves_state_intact_witness :
    (handleCompleteWorkout sampleReadingsState true true allFailNet).state =
      sampleReadingsState ∧
    (handleCompleteWorkout sampleReadingsState true true allFailNet).success = false := by
  have h := completion_failure_leaves_state_intact sampleReadingsState true true allFailNet
    (Or.inl rfl)
  exact ⟨h.1, h.2.2⟩

/-- Claim C4 at the failing input: a non-empty cached entry (one logged
set) together with a server session that has a plan and also returns
exercise data (no sets) for the same exercise-version id.  The rehydrated
cached state is overwritten when the asynchronous fetch resolves: the
final in-memory list equals the server-derived mapping, not the cached
list. -/
theorem init_local_cache_overwritten_by_fetch :
    initializeSessionExercises (some [sampleExercise]) staleServerSession samplePlan ≠
      [sampleExercise] ∧
    initializeSessionExercises (some [sampleExercise]) staleServerSession samplePlan =
      samplePlan.exercises.map (mapWithSession staleServerSession.exercises) := by
  exact ⟨by decide, by decide⟩

/-- Claim C7 counterexample: with a non-empty exercise list, a failed
storage write in the exercises save effect is not caught — the effect
propagates the exception — contradicting the claim that every cache write
failure is caught and ignored. -/
theorem exercises_cache_write_throws :
    (saveExercisesEffect false runningTimerState).2 = true := by decide

/-- Claim C7 amended: the cache write for an accepted sensor reading is
caught and ignored, and the in-memory state after a failed write equals
that after a successful one; for exercise/set mutations the in-memory
state is likewise identical either way, but the write is unguarded: the
save effect propagates a storage failure exactly when its non-empty guard
lets the write run. -/
theorem cache_write_failure_behaviour (s : EngineState) (v t : Nat) :
    inMemory (recordHeartRateEffect s v t false) =
      inMemory (recordHeartRateEffect s v t true) ∧
    (recordHeartRateEffect s v t false).heartRateReadings =
      s.heartRateReadings ++ [{ timestamp := t, value := v }] ∧
    inMemory (saveExercisesEffect false s).1 = inMemory (saveExercisesEffect true s).1 ∧
    (saveExercisesEffect false s).2 = decide (0 < s.sessionExercises.length) := by
  refine ⟨rfl, rfl, ?_, ?_⟩
  · unfold saveExercisesEffect
    split <;> rfl
  · unfold saveExercisesEffect
    split
    case isTrue hpos => simp [hpos]
    case isFalse hpos => simp [hpos]

/-- Claim C8 counterexample: the 2-byte payload with flags byte 1 (bit 0
set) makes the decoder attempt a 16-bit read at offset 1, out of range
for the 2-byte view (RangeError): no integer is returned although the
payload has at least 2 bytes. -/
theorem parseHeartRate_two_byte_flagged :
    2 ≤ ([1, 42] : List Nat).length ∧ ((1 : Nat) &&& 1 ≠ 0) ∧
    parseHeartRate [1, 42] = none := by decide

/-- Claim C8 amended: for payloads of at least 2 bytes the decoder returns
the 8-bit value at byte 1 when bit 0 of the flags byte is clear; when bit
0 is set it returns the little-endian 16-bit value of bytes 1-2 provided
the payload has at least 3 bytes, and fails with a range error (returning
no value) on an exactly 2-byte payload. -/
theorem parseHeartRate_decodes (b0 b1 : Nat) (rest : List Nat) :
    (b0 &&& 1 = 0 → parseHeartRate (b0 :: b1 :: rest) = some b1) ∧
    (∀ b2 rest2, b0 &&& 1 ≠ 0 → rest = b2 :: rest2 →
      parseHeartRate (b0 :: b1 :: rest) = some (b1 + 256 * b2)) ∧
    (b0 &&& 1 ≠ 0 → rest = [] → parseHeartRate (b0 :: b1 :: rest) = none) := by
  have hand : b0 &&& 1 = b0 % 2 := Nat.and_one_is_mod b0
  refine ⟨?_, ?_, ?_⟩
  · intro h
    simp [parseHeartRate, getUint8, h]
  · intro b2 rest2 h hrest
    subst hrest
    rw [hand] at h
    have h1 : b0 % 2 = 1 := by omega
    simp [parseHeartRate, getUint8, getUint16le, hand, h1]
  · intro h hrest
    subst hrest
    rw [hand] at h
    have h1 : b0 % 2 = 1 := by omega
    simp [parseHeartRate, getUint8, getUint16le, hand, h1]

/-- Witness for C8 at three concrete payloads: 8-bit, 16-bit and the
failing 2-byte flagged case. -/
theorem parseHeartRate_decodes_witness :
    parseHeartRate [0, 70] = some 70 ∧
    parseHeartRate [1, 34, 1] = some (34 + 256 * 1) ∧
    parseHeartRate [1, 5] = none :=
  ⟨(parseHeartRate_decodes 0 70 []).1 (by decide),
    (parseHeartRate_decodes 1 34 [1]).2.1 1 [] (by decide) rfl,
    (parseHeartRate_decodes 1 5 []).2.2 (by decide) rfl⟩

end Workout
